import Mathlib

/-!
Verification of the attendance-window and lesson-scheduling logic of a
role-based school attendance tracker.

Time is modelled as minutes since a fixed epoch that falls on a Sunday at
00:00, so that `weekday t = (t / 1440) % 7` matches JavaScript's
`Date.getDay` (0 = Sunday .. 6 = Saturday) and `t % 1440` is the
minutes-since-midnight of `t`.  The source works at millisecond
granularity through JS `Date` objects; every quantity the claims speak
about (window bounds, the 24-hour instant-lesson cutoff, start times)
is a whole number of minutes, so the minute-granularity model is faithful
on that domain.

The embedded operations:
  * `windowFor` / `occurrenceStart` — the window computation of the
    `app.post("/api/attendance")` handler in `server/databaseStorage.ts`
    (instant-lesson branch and regular-lesson branch);
  * `evaluateMark` — the decision chain of the same handler (future-lesson
    rejection, window check, ownership checks);
  * `postAttendance` — the handler combined with the storage write;
  * `markAttendance` — `DatabaseStorage.markAttendance` over a list-backed
    store (select existing, dedupe, update, or insert);
  * `lessonStatus` — the lesson status computation of the admin lessons
    page (`AdminLessons`);
  * the two-phase (check / act) split of `markAttendance` together with a
    uniqueness-enforcing insert, used to reason about interleavings of two
    concurrent mark calls against the `lesson_student_idx` unique index.
-/

/-- Day of week of an absolute time in minutes, 0 = Sunday .. 6 = Saturday
(the epoch is a Sunday midnight). Mirrors `now.getDay()`. -/
def weekday (t : Int) : Int :=
  Int.emod (Int.ediv t 1440) 7

/-- Minutes since midnight of an absolute time, mirrors
`now.getHours() * 60 + now.getMinutes()`. -/
def minutesOfDay (t : Int) : Int :=
  Int.emod t 1440

/-- A lesson row (`lessons` table of `shared/schema.ts`): the fields the
attendance window logic reads. `createdAt` is in absolute minutes. -/
structure Lesson where
  id : Nat
  classId : Nat
  teacherId : Nat
  dayOfWeek : Nat
  startTimeMinutes : Nat
  durationMinutes : Nat
  attendanceWindowMinutes : Nat
  isActive : Bool
  createdAt : Int
deriving Repr, DecidableEq

/-- Actor roles, from the `role` string of the authenticated user. -/
inductive Role
  | admin
  | teacher
  | student
deriving Repr, DecidableEq

/-- The authenticated actor: `req.user` fields read by the handler. -/
structure Actor where
  id : Nat
  role : Role
  classId : Nat
deriving Repr, DecidableEq

/-- Attendance status enum of the `attendance` table. -/
inductive AttStatus
  | present
  | absent
deriving Repr, DecidableEq

/-- The body of a mark-attendance request
(`insertAttendanceSchema`: lessonId, studentId, status). -/
structure InsertAttendance where
  lessonId : Nat
  studentId : Nat
  status : AttStatus
deriving Repr, DecidableEq

/-- `isInstantLesson` of the handler: the lesson was created less than 24
hours before `now` (`now.getTime() - createdAt.getTime() < 24*60*60*1000`,
here in minutes). -/
def isInstant (l : Lesson) (now : Int) : Bool :=
  now - l.createdAt < 1440

/-- The resolved occurrence start datetime of a regular lesson: the
handler takes `now`, walks the date back to the most recent occurrence of
`lesson.dayOfWeek` when that differs from today
(`lessonDate.setDate(now.getDate() - ((currentDayOfWeek - lesson.dayOfWeek + 7) % 7))`),
then sets the time of day from `startTimeMinutes`
(`lessonDate.setHours(startHours, startMinutes, 0, 0)`). -/
def occurrenceStart (l : Lesson) (now : Int) : Int :=
  let currentDayOfWeek := weekday now
  let back := Int.emod (currentDayOfWeek - (l.dayOfWeek : Int) + 7) 7
  let dayStart :=
    (Int.ediv now 1440 - (if (l.dayOfWeek : Int) = currentDayOfWeek then 0 else back)) * 1440
  dayStart + (l.startTimeMinutes : Int)

/-- The attendance window `[preClassWindow, lessonEndTime]` computed by the
handler.  Instant lessons: `[createdAt, createdAt + (attendanceWindowMinutes || 30)]`.
Regular lessons: `[occurrence - 10, occurrence + durationMinutes]`. -/
def windowFor (l : Lesson) (now : Int) : Int × Int :=
  if isInstant l now then
    (l.createdAt,
     l.createdAt + (if l.attendanceWindowMinutes = 0 then 30 else (l.attendanceWindowMinutes : Int)))
  else
    (occurrenceStart l now - 10, occurrenceStart l now + (l.durationMinutes : Int))

/-- The error payload of the window rejection in the handler
(`{message, opensAt, closesAt, currentTime, isInstantLesson}`). -/
structure WindowErrorPayload where
  message : String
  opensAt : Int
  closesAt : Int
  currentTime : Int
  isInstantLesson : Bool
deriving Repr, DecidableEq

/-- Outcome of the mark-attendance handler's decision chain, in source
order: future-lesson rejection, window rejection, the three ownership
rejections, then success (the storage write). -/
inductive MarkResult
  | futureLesson (message : String)
  | windowClosed (payload : WindowErrorPayload)
  | notOwnAttendance (message : String)
  | notInClass (message : String)
  | notOwnLesson (message : String)
  | success
deriving Repr, DecidableEq

/-- `true` exactly on the window rejection outcome. -/
def MarkResult.isWindowClosed : MarkResult → Bool
  | .windowClosed _ => true
  | _ => false

/-- The decision chain of `app.post("/api/attendance")`:
1. if the lesson's day differs from today, a student is rejected when
   `daysUntilNext = (dayOfWeek - currentDayOfWeek + 7) % 7` is nonzero and
   positive ("Cannot mark attendance for future lessons");
2. a student outside `[preClassWindow, lessonEndTime]` on an active lesson
   without `force` is rejected with the window payload;
3. a student may mark only their own attendance, and only in their class;
4. a teacher may mark only their own lessons;
5. otherwise the marking proceeds. -/
def evaluateMark (l : Lesson) (actor : Actor) (data : InsertAttendance)
    (force : Bool) (now : Int) : MarkResult :=
  let currentDayOfWeek := weekday now
  let daysUntilNext := Int.emod ((l.dayOfWeek : Int) - currentDayOfWeek + 7) 7
  if (l.dayOfWeek : Int) ≠ currentDayOfWeek ∧ actor.role = Role.student ∧
      daysUntilNext ≠ 0 ∧ 0 < daysUntilNext then
    MarkResult.futureLesson "Cannot mark attendance for future lessons"
  else
    let w := windowFor l now
    if actor.role = Role.student ∧ (now < w.1 ∨ w.2 < now) ∧ l.isActive = true ∧ force = false then
      MarkResult.windowClosed
        ⟨"Attendance window is not open", w.1, w.2, now, isInstant l now⟩
    else if actor.role = Role.student ∧ data.studentId ≠ actor.id then
      MarkResult.notOwnAttendance "You can only mark your own attendance"
    else if actor.role = Role.student ∧ actor.classId ≠ l.classId then
      MarkResult.notInClass "You are not part of this class"
    else if actor.role = Role.teacher ∧ l.teacherId ≠ actor.id then
      MarkResult.notOwnLesson "You can only mark attendance for your own lessons"
    else
      MarkResult.success

/-- A row of the `attendance` table. -/
structure AttendanceRecord where
  id : Nat
  lessonId : Nat
  studentId : Nat
  status : AttStatus
  markedAt : Int
  createdAt : Int
deriving Repr, DecidableEq

/-- The attendance store: the rows plus the next serial id. -/
structure StorageState where
  records : List AttendanceRecord
  nextId : Nat
deriving Repr, DecidableEq

/-- Does a row belong to the (lessonId, studentId) pair of a request? -/
def matchesPair (d : InsertAttendance) (r : AttendanceRecord) : Bool :=
  r.lessonId == d.lessonId && r.studentId == d.studentId

/-- The rows of the store for one (lessonId, studentId) pair. -/
def pairRecords (s : StorageState) (d : InsertAttendance) : List AttendanceRecord :=
  s.records.filter (matchesPair d)

/-- The insert arm of `markAttendance`
(`db.insert(attendance).values({...attendanceData, markedAt: new Date()})`):
append a fresh row with the next serial id. -/
def insertRecord (s : StorageState) (d : InsertAttendance) (now : Int) : StorageState :=
  { records := s.records ++
      [{ id := s.nextId, lessonId := d.lessonId, studentId := d.studentId,
         status := d.status, markedAt := now, createdAt := now }],
    nextId := s.nextId + 1 }

/-- The existing-records arm of `markAttendance`: delete every selected
row but the first (`db.delete(attendance).where(eq(attendance.id, existingRecords[i].id))`
for `i ≥ 1`), then update the first row's `status` and `markedAt`
(`db.update(attendance).set({status, markedAt: new Date()}).where(eq(attendance.id, existingRecords[0].id))`).
`first` and `rest` are the rows the select returned; the deletes and the
update run against the current table state `s`. -/
def applyExistingUpdate (s : StorageState) (first : AttendanceRecord)
    (rest : List AttendanceRecord) (d : InsertAttendance) (now : Int) : StorageState :=
  let deleteIds := rest.map (fun r => r.id)
  let afterDelete := s.records.filter (fun r => !(deleteIds.contains r.id))
  let updated := afterDelete.map (fun r =>
    if r.id == first.id then { r with status := d.status, markedAt := now } else r)
  { s with records := updated }

/-- `DatabaseStorage.markAttendance`: select the rows of the
(lessonId, studentId) pair; if any exist, delete all but the first and
update that first row's `status` and `markedAt`; otherwise insert a fresh
row.  `now` is the `new Date()` taken at write time. -/
def markAttendance (s : StorageState) (d : InsertAttendance) (now : Int) : StorageState :=
  let existing := s.records.filter (matchesPair d)
  match existing with
  | [] => insertRecord s d now
  | first :: rest => applyExistingUpdate s first rest d now

/-- The full POST handler: run the decision chain; on success perform the
storage write, otherwise leave the store untouched. -/
def postAttendance (l : Lesson) (actor : Actor) (data : InsertAttendance)
    (force : Bool) (now : Int) (s : StorageState) : MarkResult × StorageState :=
  match evaluateMark l actor data force now with
  | MarkResult.success => (MarkResult.success, markAttendance s data now)
  | e => (e, s)

/-- The three status labels of the admin lessons page. -/
inductive LessonStatus
  | notStarted
  | inProgress
  | completed
deriving Repr, DecidableEq

/-- The lesson status computation of `AdminLessons`: on the lesson's own
day compare minutes-since-midnight against
`[startTimeMinutes, startTimeMinutes + (durationMinutes || 120)]`; on
another day, `Completed` when
`(currentDay > dayOfWeek && currentDay !== 0) || (currentDay === 0 && dayOfWeek !== 0)`,
else `Not Started`. -/
def lessonStatus (l : Lesson) (now : Int) : LessonStatus :=
  let currentDay := weekday now
  let currentTimeMinutes := minutesOfDay now
  let endTimeMinutes :=
    (l.startTimeMinutes : Int) + (if l.durationMinutes = 0 then 120 else (l.durationMinutes : Int))
  if (l.dayOfWeek : Int) = currentDay then
    if endTimeMinutes < currentTimeMinutes then LessonStatus.completed
    else if (l.startTimeMinutes : Int) ≤ currentTimeMinutes then LessonStatus.inProgress
    else LessonStatus.notStarted
  else if ((l.dayOfWeek : Int) < currentDay ∧ currentDay ≠ 0) ∨
      (currentDay = 0 ∧ (l.dayOfWeek : Int) ≠ 0) then
    LessonStatus.completed
  else
    LessonStatus.notStarted

/-- The status rule as the specification words it: on the lesson's day the
same three-way time comparison; on another day, `Completed` exactly when
`dayOfWeek` is strictly before today's weekday index (Sunday = 0),
otherwise `Not Started`. -/
def lessonStatusSpec (l : Lesson) (now : Int) : LessonStatus :=
  let currentDay := weekday now
  let currentTimeMinutes := minutesOfDay now
  let endTimeMinutes := (l.startTimeMinutes : Int) + (l.durationMinutes : Int)
  if (l.dayOfWeek : Int) = currentDay then
    if endTimeMinutes < currentTimeMinutes then LessonStatus.completed
    else if (l.startTimeMinutes : Int) ≤ currentTimeMinutes then LessonStatus.inProgress
    else LessonStatus.notStarted
  else if (l.dayOfWeek : Int) < currentDay then
    LessonStatus.completed
  else
    LessonStatus.notStarted

/-- Well-formedness of the store: row ids are pairwise distinct and below
the next serial id (what a serial primary key provides). -/
def WF (s : StorageState) : Prop :=
  (s.records.map (fun r => r.id)).Nodup ∧ ∀ r ∈ s.records, r.id < s.nextId

/-- At most one row per (lessonId, studentId) pair: the invariant of the
`lesson_student_idx` unique index of the `attendance` table. -/
def pairBound (s : StorageState) : Prop :=
  ∀ e : InsertAttendance, (pairRecords s e).length ≤ 1

/-- The read phase of `markAttendance`: the select that fetches the
existing rows of the pair.  Returns a snapshot; the state is unchanged. -/
def readPhase (s : StorageState) (d : InsertAttendance) : List AttendanceRecord :=
  s.records.filter (matchesPair d)

/-- The insert as executed by the database with the `lesson_student_idx`
unique index enforced: if a row for the pair already exists in the
current state the insert fails with a uniqueness error (`true` flag) and
changes nothing. -/
def insertUnique (s : StorageState) (d : InsertAttendance) (now : Int) :
    StorageState × Bool :=
  if (s.records.filter (matchesPair d)).isEmpty then
    (insertRecord s d now, false)
  else
    (s, true)

/-- The write phase of `markAttendance`, acting on the current state `s`
with the snapshot its own read phase returned earlier: empty snapshot →
attempt the insert (which the unique index may reject); otherwise run the
delete-then-update against the current state. -/
def writePhase (snapshot : List AttendanceRecord) (s : StorageState)
    (d : InsertAttendance) (now : Int) : StorageState × Bool :=
  match snapshot with
  | [] => insertUnique s d now
  | first :: rest => (applyExistingUpdate s first rest d now, false)

/-- The six interleavings of two two-phase (read, write) mark calls A and
B: each read precedes its own write. -/
inductive Sched
  | aabb
  | abab
  | abba
  | baab
  | baba
  | bbaa
deriving Repr, DecidableEq

/-- Run two concurrent `markAttendance` calls A and B under a given
interleaving.  Returns the final state and each call's error flag
(`true` = the call's insert was rejected by the unique index). -/
def runTwo (sched : Sched) (s0 : StorageState) (dA : InsertAttendance) (tA : Int)
    (dB : InsertAttendance) (tB : Int) : StorageState × Bool × Bool :=
  match sched with
  | Sched.aabb =>
      let rA := writePhase (readPhase s0 dA) s0 dA tA
      let rB := writePhase (readPhase rA.1 dB) rA.1 dB tB
      (rB.1, rA.2, rB.2)
  | Sched.abab =>
      let snapA := readPhase s0 dA
      let snapB := readPhase s0 dB
      let rA := writePhase snapA s0 dA tA
      let rB := writePhase snapB rA.1 dB tB
      (rB.1, rA.2, rB.2)
  | Sched.abba =>
      let snapA := readPhase s0 dA
      let snapB := readPhase s0 dB
      let rB := writePhase snapB s0 dB tB
      let rA := writePhase snapA rB.1 dA tA
      (rA.1, rA.2, rB.2)
  | Sched.baab =>
      let snapB := readPhase s0 dB
      let snapA := readPhase s0 dA
      let rA := writePhase snapA s0 dA tA
      let rB := writePhase snapB rA.1 dB tB
      (rB.1, rA.2, rB.2)
  | Sched.baba =>
      let snapB := readPhase s0 dB
      let snapA := readPhase s0 dA
      let rB := writePhase snapB s0 dB tB
      let rA := writePhase snapA rB.1 dA tA
      (rA.1, rA.2, rB.2)
  | Sched.bbaa =>
      let rB := writePhase (readPhase s0 dB) s0 dB tB
      let rA := writePhase (readPhase rB.1 dA) rB.1 dA tA
      (rA.1, rA.2, rB.2)

/-- C1: for every non-instant lesson (now is at least 24 hours past
`createdAt`), the handler's window is `[occurrence − 10, occurrence +
durationMinutes]`, so its width is `durationMinutes + 10` minutes, for
every value of `attendanceWindowMinutes`. -/
theorem claim1_nonInstant_window (l : Lesson) (now : Int)
    (h : 1440 ≤ now - l.createdAt) :
    (windowFor l now).1 = occurrenceStart l now - 10 ∧
    (windowFor l now).2 = occurrenceStart l now + (l.durationMinutes : Int) ∧
    (windowFor l now).2 - (windowFor l now).1 = (l.durationMinutes : Int) + 10 := by
  have hni : isInstant l now = false := by
    simp only [isInstant, decide_eq_false_iff_not]
    omega
  have hwf : windowFor l now =
      (occurrenceStart l now - 10, occurrenceStart l now + (l.durationMinutes : Int)) := by
    simp only [windowFor, hni, Bool.false_eq_true, if_false]
  rw [hwf]
  refine ⟨rfl, rfl, ?_⟩
  ring

/-- Witness for C1 at a concrete lesson and time. -/
theorem claim1_witness :
    1440 ≤ (2000 : Int) - (⟨1, 1, 1, 1, 540, 60, 30, true, 0⟩ : Lesson).createdAt ∧
    (windowFor ⟨1, 1, 1, 1, 540, 60, 30, true, 0⟩ 2000).2 -
      (windowFor ⟨1, 1, 1, 1, 540, 60, 30, true, 0⟩ 2000).1 = (60 : Int) + 10 :=
  ⟨by decide, (claim1_nonInstant_window ⟨1, 1, 1, 1, 540, 60, 30, true, 0⟩ 2000 (by decide)).2.2⟩

/-- C2: for every lesson created within 24 hours of now the window is
anchored at creation: `[createdAt, createdAt + attendanceWindowMinutes]`
(width exactly `attendanceWindowMinutes`, which the schema keeps ≥ 5 and
hence nonzero), independent of `dayOfWeek`, `startTimeMinutes` and
`durationMinutes`. -/
theorem claim2_instant_window (l : Lesson) (now : Int)
    (h : now - l.createdAt < 1440) (hw : l.attendanceWindowMinutes ≠ 0) :
    (windowFor l now).1 = l.createdAt ∧
    (windowFor l now).2 = l.createdAt + (l.attendanceWindowMinutes : Int) ∧
    (windowFor l now).2 - (windowFor l now).1 = (l.attendanceWindowMinutes : Int) ∧
    (∀ d s du : Nat,
      windowFor { l with dayOfWeek := d, startTimeMinutes := s, durationMinutes := du } now =
        windowFor l now) := by
  have hi : isInstant l now = true := by
    simp only [isInstant, decide_eq_true_eq]
    omega
  have hi' : ∀ d s du : Nat,
      isInstant { l with dayOfWeek := d, startTimeMinutes := s, durationMinutes := du } now = true := by
    intro d s du
    simp only [isInstant, decide_eq_true_eq]
    omega
  have hwf : windowFor l now =
      (l.createdAt, l.createdAt + (l.attendanceWindowMinutes : Int)) := by
    simp only [windowFor, hi, if_true, hw, if_false]
  refine ⟨by rw [hwf], by rw [hwf], by rw [hwf]; ring, ?_⟩
  intro d s du
  rw [hwf]
  simp only [windowFor, hi' d s du, if_true, hw, if_false]

/-- Witness for C2 at a concrete instant lesson. -/
theorem claim2_witness :
    (1000 : Int) - (⟨1, 1, 1, 1, 540, 60, 30, true, 900⟩ : Lesson).createdAt < 1440 ∧
    (30 : Nat) ≠ 0 ∧
    (windowFor ⟨1, 1, 1, 1, 540, 60, 30, true, 900⟩ 1000).2 -
      (windowFor ⟨1, 1, 1, 1, 540, 60, 30, true, 900⟩ 1000).1 = (30 : Int) :=
  ⟨by decide, by decide,
    (claim2_instant_window ⟨1, 1, 1, 1, 540, 60, 30, true, 900⟩ 1000
      (by decide) (by decide)).2.2.1⟩

/-- C3: for every lesson with `isActive = false`, the handler never
rejects a student with the window error, whatever `now` and `force` are
(the window rejection requires `lesson.isActive`); and on the lesson's
own day a student marking their own attendance in their own class is
permitted at every time of day without `force`. -/
theorem claim3_inactive_no_window_error (l : Lesson) (actor : Actor)
    (data : InsertAttendance) (force : Bool) (now : Int)
    (h : l.isActive = false) :
    (evaluateMark l actor data force now).isWindowClosed = false ∧
    (actor.role = Role.student → (l.dayOfWeek : Int) = weekday now →
      data.studentId = actor.id → actor.classId = l.classId →
      evaluateMark l actor data force now = MarkResult.success) := by
  constructor
  · simp only [evaluateMark]
    split
    · rfl
    · split
      · rename_i hcond
        rw [h] at hcond
        simp at hcond
      · split
        · rfl
        · split
          · rfl
          · split
            · rfl
            · rfl
  · intro hrole hday hsid hcid
    simp [evaluateMark, h, hday, hrole, hsid, hcid]

/-- Witness for C3: an inactive lesson, a student far outside the window. -/
theorem claim3_witness :
    (⟨1, 5, 9, 1, 540, 60, 30, false, 0⟩ : Lesson).isActive = false ∧
    (evaluateMark ⟨1, 5, 9, 1, 540, 60, 30, false, 0⟩ ⟨42, Role.student, 5⟩
      ⟨1, 42, AttStatus.present⟩ false 12150).isWindowClosed = false :=
  ⟨by decide,
    (claim3_inactive_no_window_error ⟨1, 5, 9, 1, 540, 60, 30, false, 0⟩
      ⟨42, Role.student, 5⟩ ⟨1, 42, AttStatus.present⟩ false 12150 (by decide)).1⟩

/-- C10: for every non-instant lesson, the whole decision (including the
window bounds in the error payload) is unchanged when only
`attendanceWindowMinutes` differs: the regular branch never reads it. -/
theorem claim10_window_independent (l : Lesson) (actor : Actor)
    (data : InsertAttendance) (force : Bool) (now : Int) (w : Nat)
    (h : 1440 ≤ now - l.createdAt) :
    evaluateMark { l with attendanceWindowMinutes := w } actor data force now =
      evaluateMark l actor data force now := by
  have hni : isInstant l now = false := by
    simp only [isInstant, decide_eq_false_iff_not]
    omega
  have hni' : isInstant { l with attendanceWindowMinutes := w } now = false := by
    simp only [isInstant, decide_eq_false_iff_not]
    omega
  have hwf : windowFor { l with attendanceWindowMinutes := w } now = windowFor l now := by
    simp only [windowFor, hni, hni', Bool.false_eq_true, if_false]
    rfl
  simp only [evaluateMark, hwf, hni, hni']

/-- Witness for C10: window width 30 versus 300 on a non-instant lesson,
same decision. -/
theorem claim10_witness :
    1440 ≤ (12150 : Int) - (⟨1, 5, 9, 1, 540, 60, 30, true, 0⟩ : Lesson).createdAt ∧
    evaluateMark ⟨1, 5, 9, 1, 540, 60, 300, true, 0⟩ ⟨42, Role.student, 5⟩
      ⟨1, 42, AttStatus.present⟩ false 12150 =
    evaluateMark ⟨1, 5, 9, 1, 540, 60, 30, true, 0⟩ ⟨42, Role.student, 5⟩
      ⟨1, 42, AttStatus.present⟩ false 12150 := by
  constructor
  · decide
  · have h1 := claim10_window_independent ⟨1, 5, 9, 1, 540, 60, 30, true, 0⟩
      ⟨42, Role.student, 5⟩ ⟨1, 42, AttStatus.present⟩ false 12150 300 (by decide)
    have h2 := claim10_window_independent ⟨1, 5, 9, 1, 540, 60, 30, true, 0⟩
      ⟨42, Role.student, 5⟩ ⟨1, 42, AttStatus.present⟩ false 12150 30 (by decide)
    exact h2 ▸ h1

/-- C4: Scenario A/B on a non-instant active Monday lesson 09:00–10:00
(start 540, duration 60, window field 30).  Day 8 of the model is a
Monday.  At 09:15 (inside the 08:50–10:00 window) a student marking their
own attendance in their own class is permitted; at 10:30 they are denied
with the structured payload whose `closesAt` is today 10:00 (absolute
minute 12120 = day 8 at minute 600) and which carries `message`,
`opensAt`, `closesAt`, `currentTime` and `isInstantLesson`. -/
theorem claim4_scenarioAB :
    evaluateMark ⟨1, 5, 9, 1, 540, 60, 30, true, 0⟩ ⟨42, Role.student, 5⟩
      ⟨1, 42, AttStatus.present⟩ false (8 * 1440 + 555) = MarkResult.success ∧
    evaluateMark ⟨1, 5, 9, 1, 540, 60, 30, true, 0⟩ ⟨42, Role.student, 5⟩
      ⟨1, 42, AttStatus.present⟩ false (8 * 1440 + 630) =
      MarkResult.windowClosed
        ⟨"Attendance window is not open", 8 * 1440 + 530, 8 * 1440 + 600,
         8 * 1440 + 630, false⟩ ∧
    8 * 1440 + 600 = 8 * 1440 + 10 * 60 := by
  refine ⟨by decide, by decide, by norm_num⟩

/-- C5: a student request for a lesson whose (schema-valid) `dayOfWeek`
differs from today's weekday is rejected as a future lesson with the exact
message, and the store is left untouched. -/
theorem claim5_future_rejected (l : Lesson) (actor : Actor)
    (data : InsertAttendance) (force : Bool) (now : Int) (s : StorageState)
    (hrole : actor.role = Role.student) (hdw : l.dayOfWeek < 7)
    (hne : (l.dayOfWeek : Int) ≠ weekday now) :
    evaluateMark l actor data force now =
      MarkResult.futureLesson "Cannot mark attendance for future lessons" ∧
    postAttendance l actor data force now s =
      (MarkResult.futureLesson "Cannot mark attendance for future lessons", s) := by
  have hw0 : 0 ≤ weekday now := Int.emod_nonneg _ (by norm_num)
  have hw7 : weekday now < 7 := Int.emod_lt_of_pos _ (by norm_num)
  have hdw' : (l.dayOfWeek : Int) < 7 := by exact_mod_cast hdw
  have hdw0 : 0 ≤ (l.dayOfWeek : Int) := Int.ofNat_nonneg _
  have h1 : 0 ≤ Int.emod ((l.dayOfWeek : Int) - weekday now + 7) 7 :=
    Int.emod_nonneg _ (by norm_num)
  have h2 : Int.emod ((l.dayOfWeek : Int) - weekday now + 7) 7 ≠ 0 := by
    intro h0
    obtain ⟨k, hk⟩ := Int.dvd_of_emod_eq_zero h0
    omega
  have hcond : (l.dayOfWeek : Int) ≠ weekday now ∧ actor.role = Role.student ∧
      Int.emod ((l.dayOfWeek : Int) - weekday now + 7) 7 ≠ 0 ∧
      0 < Int.emod ((l.dayOfWeek : Int) - weekday now + 7) 7 := by
    exact ⟨hne, hrole, h2, by omega⟩
  have heval : evaluateMark l actor data force now =
      MarkResult.futureLesson "Cannot mark attendance for future lessons" := by
    simp only [evaluateMark]
    split
    · rfl
    · rename_i hno
      exact absurd hcond hno
  exact ⟨heval, by simp only [postAttendance, heval]⟩

/-- Witness for C5: a Tuesday lesson, a student marking on a Monday. -/
theorem claim5_witness :
    (⟨55, Role.student, 5⟩ : Actor).role = Role.student ∧
    (⟨1, 5, 9, 2, 540, 60, 30, true, 0⟩ : Lesson).dayOfWeek < 7 ∧
    (((⟨1, 5, 9, 2, 540, 60, 30, true, 0⟩ : Lesson).dayOfWeek : Int) ≠ weekday 12075) ∧
    postAttendance ⟨1, 5, 9, 2, 540, 60, 30, true, 0⟩ ⟨55, Role.student, 5⟩
      ⟨1, 55, AttStatus.present⟩ false 12075 ⟨[], 0⟩ =
      (MarkResult.futureLesson "Cannot mark attendance for future lessons", ⟨[], 0⟩) :=
  ⟨by decide, by decide, by decide,
    (claim5_future_rejected ⟨1, 5, 9, 2, 540, 60, 30, true, 0⟩ ⟨55, Role.student, 5⟩
      ⟨1, 55, AttStatus.present⟩ false 12075 ⟨[], 0⟩ (by decide) (by decide) (by decide)).2⟩

/-- C6: for an admin, or a teacher on their own lesson, the window never
blocks: the evaluation is `success` for every `now` and `force`, and the
handler goes on to write the attendance record. -/
theorem claim6_teacher_admin_override (l : Lesson) (actor : Actor)
    (data : InsertAttendance) (force : Bool) (now : Int) (s : StorageState)
    (h : actor.role = Role.admin ∨ (actor.role = Role.teacher ∧ l.teacherId = actor.id)) :
    evaluateMark l actor data force now = MarkResult.success ∧
    postAttendance l actor data force now s =
      (MarkResult.success, markAttendance s data now) := by
  have heval : evaluateMark l actor data force now = MarkResult.success := by
    rcases h with hadmin | ⟨hteach, hown⟩
    · simp [evaluateMark, hadmin]
    · simp [evaluateMark, hteach, hown]
  exact ⟨heval, by simp only [postAttendance, heval]⟩

/-- Witness for C6: a teacher marking their own lesson far outside the
window without `force`, and the record is written. -/
theorem claim6_witness :
    ((⟨9, Role.teacher, 0⟩ : Actor).role = Role.admin ∨
      ((⟨9, Role.teacher, 0⟩ : Actor).role = Role.teacher ∧
        (⟨1, 5, 9, 1, 540, 60, 30, true, 0⟩ : Lesson).teacherId =
          (⟨9, Role.teacher, 0⟩ : Actor).id)) ∧
    postAttendance ⟨1, 5, 9, 1, 540, 60, 30, true, 0⟩ ⟨9, Role.teacher, 0⟩
      ⟨1, 42, AttStatus.present⟩ false (8 * 1440 + 1300) ⟨[], 0⟩ =
      (MarkResult.success,
        markAttendance ⟨[], 0⟩ ⟨1, 42, AttStatus.present⟩ (8 * 1440 + 1300)) :=
  ⟨Or.inr ⟨rfl, rfl⟩,
    (claim6_teacher_admin_override ⟨1, 5, 9, 1, 540, 60, 30, true, 0⟩ ⟨9, Role.teacher, 0⟩
      ⟨1, 42, AttStatus.present⟩ false (8 * 1440 + 1300) ⟨[], 0⟩ (Or.inr ⟨rfl, rfl⟩)).2⟩

/-- C9 counterexample: on a Sunday (absolute minute 10080 is the start of
day 7, a Sunday, so today's weekday index is 0), a Monday lesson
(`dayOfWeek = 1`) has `dayOfWeek` NOT strictly before today's index, so
the claim's rule classifies it `Not Started`; the code classifies it
`Completed` through its explicit `currentDay === 0 && dayOfWeek !== 0`
branch. -/
theorem claim9_counterexample :
    weekday 10080 = 0 ∧
    ¬ (((⟨1, 5, 9, 1, 540, 60, 30, true, 0⟩ : Lesson).dayOfWeek : Int) < weekday 10080) ∧
    lessonStatusSpec ⟨1, 5, 9, 1, 540, 60, 30, true, 0⟩ 10080 = LessonStatus.notStarted ∧
    lessonStatus ⟨1, 5, 9, 1, 540, 60, 30, true, 0⟩ 10080 = LessonStatus.completed ∧
    LessonStatus.completed ≠ LessonStatus.notStarted := by
  refine ⟨by decide, by decide, by decide, by decide, by decide⟩

/-- C9 (amended): the classifier of the admin lessons page, for
schema-valid lessons (`dayOfWeek ≤ 6`, `durationMinutes ≠ 0`): on the
lesson's own day the three-way time comparison of the claim; on a
different day with today not Sunday, `Completed` exactly when `dayOfWeek`
is strictly before today's index, else `Not Started`; and when today is
Sunday every different-day lesson is `Completed`. -/
theorem claim9_status_amended (l : Lesson) (now : Int)
    (hdw : l.dayOfWeek < 7) (hdur : l.durationMinutes ≠ 0) :
    (((l.dayOfWeek : Int) = weekday now →
      (((l.startTimeMinutes : Int) + (l.durationMinutes : Int) < minutesOfDay now →
          lessonStatus l now = LessonStatus.completed) ∧
       ((l.startTimeMinutes : Int) ≤ minutesOfDay now ∧
          minutesOfDay now ≤ (l.startTimeMinutes : Int) + (l.durationMinutes : Int) →
          lessonStatus l now = LessonStatus.inProgress) ∧
       (minutesOfDay now < (l.startTimeMinutes : Int) →
          lessonStatus l now = LessonStatus.notStarted))) ∧
     ((l.dayOfWeek : Int) ≠ weekday now → weekday now ≠ 0 →
        (l.dayOfWeek : Int) < weekday now →
        lessonStatus l now = LessonStatus.completed) ∧
     ((l.dayOfWeek : Int) ≠ weekday now → weekday now ≠ 0 →
        weekday now < (l.dayOfWeek : Int) →
        lessonStatus l now = LessonStatus.notStarted) ∧
     ((l.dayOfWeek : Int) ≠ weekday now → weekday now = 0 →
        lessonStatus l now = LessonStatus.completed)) := by
  have hend : (if l.durationMinutes = 0 then (120 : Int) else (l.durationMinutes : Int)) =
      (l.durationMinutes : Int) := by
    rw [if_neg hdur]
  refine ⟨?_, ?_, ?_, ?_⟩
  · intro hday
    refine ⟨?_, ?_, ?_⟩
    · intro hlt
      simp only [lessonStatus, hend, if_pos hday, if_pos hlt]
    · intro ⟨hge, hle⟩
      simp only [lessonStatus, hend, if_pos hday]
      rw [if_neg (by omega), if_pos hge]
    · intro hlt
      simp only [lessonStatus, hend, if_pos hday]
      rw [if_neg (by omega), if_neg (by omega)]
  · intro hne hsun hlt
    simp only [lessonStatus, hend, if_neg hne]
    rw [if_pos (Or.inl ⟨hlt, hsun⟩)]
  · intro hne hsun hgt
    simp only [lessonStatus, hend, if_neg hne]
    split
    · rename_i hor
      rcases hor with ⟨h1, _⟩ | ⟨h1, _⟩
      · omega
      · exact absurd h1 hsun
    · rfl
  · intro hne hsun
    simp only [lessonStatus, hend, if_neg hne]
    rw [if_pos (Or.inr ⟨hsun, by omega⟩)]

/-- Witness for C9 (amended) on a Wednesday lesson evaluated during the
lesson on its own day (day 10 of the model is a Wednesday). -/
theorem claim9_witness :
    (⟨1, 5, 9, 3, 540, 60, 30, true, 0⟩ : Lesson).dayOfWeek < 7 ∧
    (⟨1, 5, 9, 3, 540, 60, 30, true, 0⟩ : Lesson).durationMinutes ≠ 0 ∧
    lessonStatus ⟨1, 5, 9, 3, 540, 60, 30, true, 0⟩ (10 * 1440 + 570) =
      LessonStatus.inProgress :=
  ⟨by decide, by decide,
    ((claim9_status_amended ⟨1, 5, 9, 3, 540, 60, 30, true, 0⟩ (10 * 1440 + 570)
        (by decide) (by decide)).1 (by decide)).2.1 ⟨by decide, by decide⟩⟩

/-- The update lambda of `markAttendance` touches only `status` and
`markedAt`, so pair membership is preserved. -/
theorem matchesPair_update_eq (e d : InsertAttendance) (now : Int) (keptId : Nat)
    (r : AttendanceRecord) :
    matchesPair e (if r.id == keptId then { r with status := d.status, markedAt := now } else r) =
      matchesPair e r := by
  split <;> rfl

/-- The update lambda of `markAttendance` keeps row ids. -/
theorem id_update_eq (d : InsertAttendance) (now : Int) (keptId : Nat)
    (r : AttendanceRecord) :
    (if r.id == keptId then { r with status := d.status, markedAt := now } else r).id = r.id := by
  split <;> rfl

/-- The pair rows after the delete-then-update arm: the update mapped over
the pair rows that survive the deletes. -/
theorem applyExistingUpdate_pairRecords (s : StorageState) (first : AttendanceRecord)
    (rest : List AttendanceRecord) (d : InsertAttendance) (now : Int) (e : InsertAttendance) :
    pairRecords (applyExistingUpdate s first rest d now) e =
      ((s.records.filter (fun r => !((rest.map (fun r => r.id)).contains r.id))).filter
          (matchesPair e)).map
        (fun r => if r.id == first.id then { r with status := d.status, markedAt := now } else r) := by
  simp only [pairRecords, applyExistingUpdate]
  have hfun : (matchesPair e ∘ (fun r : AttendanceRecord =>
      if r.id == first.id then { r with status := d.status, markedAt := now } else r)) =
      matchesPair e := by
    funext r
    simp only [Function.comp_apply]
    exact matchesPair_update_eq e d now first.id r
  rw [List.filter_map, hfun]

/-- The delete-then-update arm never increases the number of rows of any
pair. -/
theorem applyExistingUpdate_pairBound (s : StorageState) (first : AttendanceRecord)
    (rest : List AttendanceRecord) (d : InsertAttendance) (now : Int)
    (h : pairBound s) : pairBound (applyExistingUpdate s first rest d now) := by
  intro e
  rw [applyExistingUpdate_pairRecords, List.length_map]
  exact le_trans
    (List.Sublist.length_le (List.Sublist.filter (matchesPair e) (List.filter_sublist _)))
    (h e)

/-- The delete-then-update arm preserves well-formedness of the store. -/
theorem applyExistingUpdate_wf (s : StorageState) (first : AttendanceRecord)
    (rest : List AttendanceRecord) (d : InsertAttendance) (now : Int)
    (h : WF s) : WF (applyExistingUpdate s first rest d now) := by
  constructor
  · have hids : (applyExistingUpdate s first rest d now).records.map (fun r => r.id) =
        (s.records.filter (fun r => !((rest.map (fun r => r.id)).contains r.id))).map
          (fun r => r.id) := by
      simp only [applyExistingUpdate, List.map_map]
      have hfun : ((fun r : AttendanceRecord => r.id) ∘ (fun r : AttendanceRecord =>
          if r.id == first.id then { r with status := d.status, markedAt := now } else r)) =
          fun r : AttendanceRecord => r.id := by
        funext r
        simp only [Function.comp_apply]
        exact id_update_eq d now first.id r
      rw [hfun]
    rw [hids]
    exact h.1.sublist ((List.filter_sublist _).map _)
  · intro r hr
    simp only [applyExistingUpdate, List.mem_map, List.mem_filter] at hr
    obtain ⟨r0, ⟨hr0, _⟩, rfl⟩ := hr
    show (if r0.id == first.id then _ else r0).id < s.nextId
    rw [id_update_eq]
    exact h.2 r0 hr0

/-- The insert arm preserves well-formedness: the fresh id is above every
existing id. -/
theorem insertRecord_wf (s : StorageState) (d : InsertAttendance) (now : Int)
    (h : WF s) : WF (insertRecord s d now) := by
  constructor
  · simp only [insertRecord, List.map_append, List.map_cons, List.map_nil]
    rw [List.nodup_append]
    refine ⟨h.1, List.nodup_singleton _, ?_⟩
    intro a ha hb
    obtain ⟨r, hr, rfl⟩ := List.mem_map.mp ha
    have hlt := h.2 r hr
    simp only [List.mem_singleton] at hb
    omega
  · intro r hr
    simp only [insertRecord, List.mem_append, List.mem_singleton] at hr
    show r.id < s.nextId + 1
    rcases hr with hr | rfl
    · have := h.2 r hr
      omega
    · show s.nextId < s.nextId + 1
      omega

/-- When the select finds no row of the pair, `markAttendance` is the
insert arm. -/
theorem markAttendance_eq_insert (s : StorageState) (d : InsertAttendance) (now : Int)
    (h : s.records.filter (matchesPair d) = []) :
    markAttendance s d now = insertRecord s d now := by
  simp only [markAttendance, h]

/-- When the select finds rows of the pair, `markAttendance` is the
delete-then-update arm on them. -/
theorem markAttendance_eq_update (s : StorageState) (first : AttendanceRecord)
    (rest : List AttendanceRecord) (d : InsertAttendance) (now : Int)
    (h : s.records.filter (matchesPair d) = first :: rest) :
    markAttendance s d now = applyExistingUpdate s first rest d now := by
  simp only [markAttendance, h]

/-- After one `markAttendance` on a well-formed store, the pair has
exactly one row, carrying the requested status and the call's
timestamp. -/
theorem mark_pair (s : StorageState) (d : InsertAttendance) (now : Int) (hwf : WF s) :
    ∃ r, pairRecords (markAttendance s d now) d = [r] ∧
      r.lessonId = d.lessonId ∧ r.studentId = d.studentId ∧
      r.status = d.status ∧ r.markedAt = now := by
  cases h : s.records.filter (matchesPair d) with
  | nil =>
    refine ⟨{ id := s.nextId, lessonId := d.lessonId, studentId := d.studentId,
              status := d.status, markedAt := now, createdAt := now }, ?_, rfl, rfl, rfl, rfl⟩
    rw [markAttendance_eq_insert s d now h]
    simp only [pairRecords, insertRecord, List.filter_append, h]
    simp [matchesPair]
  | cons first rest =>
    have hpfirst : matchesPair d first = true := by
      have hmem : first ∈ s.records.filter (matchesPair d) := by
        rw [h]; exact List.mem_cons_self _ _
      exact (List.mem_filter.mp hmem).2
    have hpfirst' : first.lessonId = d.lessonId ∧ first.studentId = d.studentId := by
      simpa [matchesPair] using hpfirst
    have hids : (first.id :: rest.map (fun r => r.id)).Nodup := by
      have h3 := hwf.1.sublist ((List.filter_sublist (p := matchesPair d) s.records).map
        (fun r => r.id))
      rw [h] at h3
      simpa using h3
    have hnotin : first.id ∉ rest.map (fun r => r.id) := (List.nodup_cons.mp hids).1
    refine ⟨{ first with status := d.status, markedAt := now }, ?_, hpfirst'.1, hpfirst'.2,
      rfl, rfl⟩
    rw [markAttendance_eq_update s first rest d now h]
    rw [applyExistingUpdate_pairRecords]
    have hcomm : (s.records.filter (fun r => !((rest.map (fun r => r.id)).contains r.id))).filter
        (matchesPair d) =
        (s.records.filter (matchesPair d)).filter
          (fun r => !((rest.map (fun r => r.id)).contains r.id)) := by
      rw [List.filter_filter, List.filter_filter]
      congr 1
      funext a
      rw [Bool.and_comm]
    rw [hcomm, h]
    rw [List.filter_cons_of_pos (by simp [hnotin])]
    rw [List.filter_eq_nil_iff.mpr ?hrest]
    case hrest =>
      intro r hr
      simp [List.mem_map_of_mem (fun r => r.id) hr]
    simp

/-- One `markAttendance` preserves well-formedness of the store. -/
theorem mark_wf (s : StorageState) (d : InsertAttendance) (now : Int) (hwf : WF s) :
    WF (markAttendance s d now) := by
  cases h : s.records.filter (matchesPair d) with
  | nil =>
    rw [markAttendance_eq_insert s d now h]
    exact insertRecord_wf s d now hwf
  | cons first rest =>
    rw [markAttendance_eq_update s first rest d now h]
    exact applyExistingUpdate_wf s first rest d now hwf

/-- C7: marking twice with the same (lessonId, studentId) and status on a
well-formed store leaves exactly one row for the pair, with the requested
status and `markedAt` equal to the second call's timestamp; the second
call updates rather than inserts (the serial counter does not move). -/
theorem claim7_mark_idempotent (s : StorageState) (d : InsertAttendance)
    (t1 t2 : Int) (hwf : WF s) :
    (pairRecords (markAttendance (markAttendance s d t1) d t2) d).length = 1 ∧
    (∃ r, pairRecords (markAttendance (markAttendance s d t1) d t2) d = [r] ∧
      r.status = d.status ∧ r.markedAt = t2) ∧
    (markAttendance (markAttendance s d t1) d t2).nextId =
      (markAttendance s d t1).nextId := by
  have hwf1 := mark_wf s d t1 hwf
  obtain ⟨r2, hr2, _, _, hst2, hmt2⟩ := mark_pair (markAttendance s d t1) d t2 hwf1
  obtain ⟨r1, hr1, _, _, _, _⟩ := mark_pair s d t1 hwf
  refine ⟨by rw [hr2]; rfl, ⟨r2, hr2, hst2, hmt2⟩, ?_⟩
  rw [markAttendance_eq_update (markAttendance s d t1) r1 [] d t2 hr1]
  rfl

/-- Witness for C7 from the empty store. -/
theorem claim7_witness :
    WF ⟨[], 0⟩ ∧
    (pairRecords (markAttendance (markAttendance ⟨[], 0⟩ ⟨1, 2, AttStatus.present⟩ 100)
        ⟨1, 2, AttStatus.present⟩ 200) ⟨1, 2, AttStatus.present⟩).length = 1 :=
  ⟨⟨List.nodup_nil, by simp⟩,
    (claim7_mark_idempotent ⟨[], 0⟩ ⟨1, 2, AttStatus.present⟩ 100 200
      ⟨List.nodup_nil, by simp⟩).1⟩

/-- The index-enforced insert keeps every pair at ≤ 1 row: it refuses to
insert when a row of the pair is already present. -/
theorem insertUnique_pairBound (s : StorageState) (d : InsertAttendance) (now : Int)
    (h : pairBound s) : pairBound (insertUnique s d now).1 := by
  unfold insertUnique
  split
  · rename_i hemp
    intro e
    show (pairRecords (insertRecord s d now) e).length ≤ 1
    have hempty : s.records.filter (matchesPair d) = [] := by
      simpa [List.isEmpty_iff] using hemp
    simp only [pairRecords, insertRecord, List.filter_append, List.length_append]
    by_cases hme : matchesPair e ⟨s.nextId, d.lessonId, d.studentId, d.status, now, now⟩ = true
    · have he : d.lessonId = e.lessonId ∧ d.studentId = e.studentId := by
        simpa [matchesPair] using hme
      have hfun : matchesPair e = matchesPair d := by
        funext r
        simp [matchesPair, ← he.1, ← he.2]
      rw [hfun, hempty]
      have hm1 : matchesPair d
          (⟨s.nextId, d.lessonId, d.studentId, d.status, now, now⟩ : AttendanceRecord) = true := by
        simp [matchesPair]
      rw [List.filter_cons_of_pos hm1, List.filter_nil]
      simp
    · have hnil : List.filter (matchesPair e)
          [(⟨s.nextId, d.lessonId, d.studentId, d.status, now, now⟩ : AttendanceRecord)] = [] := by
        simp only [List.filter_cons_of_neg hme, List.filter_nil]
      rw [hnil]
      simpa using h e
  · intro e
    exact h e

/-- A single write phase — whatever stale snapshot its read phase took —
keeps every pair at ≤ 1 row. -/
theorem writePhase_pairBound (snap : List AttendanceRecord) (s : StorageState)
    (d : InsertAttendance) (t : Int) (h : pairBound s) :
    pairBound (writePhase snap s d t).1 := by
  cases snap with
  | nil =>
    show pairBound (insertUnique s d t).1
    exact insertUnique_pairBound s d t h
  | cons first rest =>
    show pairBound (applyExistingUpdate s first rest d t, false).1
    exact applyExistingUpdate_pairBound s first rest d t h

/-- C8 counterexample: from an empty store, under the interleaving where
both reads happen before both writes, both calls observe "no existing
record" and both attempt the insert; the second insert is rejected by the
`lesson_student_idx` unique index (error flag `true`).  Under either
serial order both calls complete without error (the later one updates).
The check-then-update-or-insert is therefore not atomic — no transaction
or upsert hides the race — though the table still ends with one row. -/
theorem claim8_counterexample :
    (runTwo Sched.abab ⟨[], 0⟩ ⟨1, 2, AttStatus.present⟩ 100
      ⟨1, 2, AttStatus.present⟩ 200).2 = (false, true) ∧
    (runTwo Sched.aabb ⟨[], 0⟩ ⟨1, 2, AttStatus.present⟩ 100
      ⟨1, 2, AttStatus.present⟩ 200).2 = (false, false) ∧
    (runTwo Sched.bbaa ⟨[], 0⟩ ⟨1, 2, AttStatus.present⟩ 100
      ⟨1, 2, AttStatus.present⟩ 200).2 = (false, false) ∧
    (runTwo Sched.abab ⟨[], 0⟩ ⟨1, 2, AttStatus.present⟩ 100
      ⟨1, 2, AttStatus.present⟩ 200).1.records.length = 1 := by
  refine ⟨by decide, by decide, by decide, by decide⟩

/-- C8 (amended): under every interleaving of two concurrent mark calls,
a store satisfying the at-most-one-row-per-pair invariant still satisfies
it afterwards — duplicate rows are prevented by the unique index, not by
any atomicity of `markAttendance` itself. -/
theorem claim8_no_duplicate_rows (sched : Sched) (s0 : StorageState)
    (dA : InsertAttendance) (tA : Int) (dB : InsertAttendance) (tB : Int)
    (h : pairBound s0) (e : InsertAttendance) :
    (pairRecords (runTwo sched s0 dA tA dB tB).1 e).length ≤ 1 := by
  cases sched <;>
    exact writePhase_pairBound _ _ _ _ (writePhase_pairBound _ _ _ _ h) e

/-- Witness for C8 (amended) on the racy interleaving from the empty
store. -/
theorem claim8_witness :
    (pairRecords (runTwo Sched.abab ⟨[], 0⟩ ⟨1, 2, AttStatus.present⟩ 100
        ⟨1, 2, AttStatus.present⟩ 200).1 ⟨1, 2, AttStatus.present⟩).length ≤ 1 :=
  claim8_no_duplicate_rows Sched.abab ⟨[], 0⟩ ⟨1, 2, AttStatus.present⟩ 100
    ⟨1, 2, AttStatus.present⟩ 200 (fun e => by simp [pairRecords])
    ⟨1, 2, AttStatus.present⟩
